import Mathlib

/-!
Verification development for the 2-link robot telemetry pipeline
(`my_2d_robo_state_publisher.cpp`): a joint-state generator (`main`) and a
kinematics logger (`SensorMeasurementData`).  The C++ doubles are modelled as
real numbers (`ℝ`) for the kinematics and as rationals (`ℚ`) for the
generator's grid of values; the C++ `int` counters are modelled as `ℤ`.
The iostream rendering of a double to text is not shallowly embeddable and is
kept as an explicit `render : ℝ → String` parameter of the configuration.
-/

namespace My2DRobot

/-- Generator draw, from `main`: `((rand() % 315) / 100.0)`.  `r` stands for
the nonnegative value returned by `rand()`. -/
def jointPosOfRand (r : ℕ) : ℚ := ((r % 315 : ℕ) : ℚ) / 100

/-- End-effector position, from `SensorMeasurementData::eePos`.  The source
subtracts the degree offsets converted by `* M_PI / 180` and then multiplies
the (already radian) angles by `M_PI / 180` again inside `cos`/`sin`. -/
noncomputable def eePos (link_1_ link_2_ theta1_offset_ theta2_offset_ joint_1 joint_2 : ℝ) :
    ℝ × ℝ :=
  let Theta1 := joint_1 - (theta1_offset_ * Real.pi / 180)
  let Theta2 := joint_2 - (theta2_offset_ * Real.pi / 180)
  ((link_1_ * Real.cos (Theta1 * Real.pi / 180)) +
     (link_2_ * Real.cos ((Theta1 + Theta2) * Real.pi / 180)),
   (link_1_ * Real.sin (Theta1 * Real.pi / 180)) +
     (link_2_ * Real.sin ((Theta1 + Theta2) * Real.pi / 180)))

/-- Transcription of the end-effector equations exactly as the specification
words them: effective angles `theta1' = positions[0] - theta1_offset*pi/180`,
`theta2' = positions[1] - theta2_offset*pi/180`, and normalization `f` a
further multiplication by `pi/180` before `cos`/`sin`. -/
noncomputable def eePosSpec (link_1 link_2 theta1_offset theta2_offset p0 p1 : ℝ) : ℝ × ℝ :=
  let theta1' := p0 - theta1_offset * (Real.pi / 180)
  let theta2' := p1 - theta2_offset * (Real.pi / 180)
  (link_1 * Real.cos (theta1' * (Real.pi / 180)) +
     link_2 * Real.cos ((theta1' + theta2') * (Real.pi / 180)),
   link_1 * Real.sin (theta1' * (Real.pi / 180)) +
     link_2 * Real.sin ((theta1' + theta2') * (Real.pi / 180)))

/-- One serialized record, from `SensorMeasurementData::saveJointAnglesEepos`:
the `YAML::Emitter` output for one `BeginSeq`…`EndSeq` document (a single
block-sequence entry whose map holds two flow sequences), followed by the
`"\n"` the method appends. -/
def emitRecord (j1 j2 x y : String) : String :=
  "- joint angles: [" ++ j1 ++ ", " ++ j2 ++
    "]\n  end effector position: [" ++ x ++ ", " ++ y ++ "]\n"

/-- A record as it appears in the file: the two rendered joint angles and the
two rendered end-effector coordinates. -/
abbrev RecS := (String × String) × (String × String)

def emitRecordR (r : RecS) : String := emitRecord r.1.1 r.1.2 r.2.1 r.2.2

/-- The accumulated text `output_data_yaml_` after the per-sample appends, as
a function of the records appended so far. -/
def serializeRecs : List RecS → String
  | [] => ""
  | r :: rs => emitRecordR r ++ serializeRecs rs

/-- Characters accepted inside a numeric scalar of the flow sequences. -/
def numChar (c : Char) : Bool :=
  c.isDigit || c = '.' || c = '-' || c = '+' || c = 'e'

def goodChars (l : List Char) : Bool := !l.isEmpty && l.all numChar

/-- A rendered double: nonempty and made only of numeric characters. -/
def goodStr (s : String) : Bool := goodChars s.data

/-- Modelled from the spec: a YAML reader for the output file format —
"a sequence of mappings, one per received sample, each with two keys:
`joint angles` (flow-style 2-element numeric sequence) and
`end effector position` (flow-style 2-element numeric sequence)".
`splitOnChar` breaks the text into lines. -/
def splitOnChar (c : Char) : List Char → List (List Char)
  | [] => [[]]
  | x :: xs =>
    let r := splitOnChar c xs
    if x = c then [] :: r else (x :: r.headD []) :: r.tail

/-- Expects the exact character list `p` at the head of `l` and returns the
rest. -/
def consume : List Char → List Char → Option (List Char)
  | [], l => some l
  | _ :: _, [] => none
  | p :: ps, x :: xs => if p = x then consume ps xs else none

/-- Reads characters up to the first occurrence of `c`; fails when `c` is
absent. -/
def readUntil (c : Char) : List Char → Option (List Char × List Char)
  | [] => none
  | x :: xs =>
    if x = c then some ([], xs)
    else (readUntil c xs).map (fun p => (x :: p.1, p.2))

/-- Parses the tail of a flow sequence `a, b]` into its two numeric scalars,
requiring nothing after the closing bracket. -/
def parseFlow (l : List Char) : Option (String × String) :=
  match readUntil ',' l with
  | none => none
  | some (a, r1) =>
    match consume [' '] r1 with
    | none => none
    | some r2 =>
      match readUntil ']' r2 with
      | none => none
      | some (b, r3) =>
        if r3.isEmpty && goodChars a && goodChars b then some (⟨a⟩, ⟨b⟩) else none

def parseJointLine (l : List Char) : Option (String × String) :=
  (consume ("- joint angles: [".data) l).bind parseFlow

def parseEeLine (l : List Char) : Option (String × String) :=
  (consume ("  end effector position: [".data) l).bind parseFlow

/-- Parses the lines of the output file: pairs of record lines, ended by the
two empty segments produced by the final newlines. -/
def parseLines : List (List Char) → Option (List RecS)
  | l1 :: l2 :: rest =>
    if l1.isEmpty then
      if l2.isEmpty && rest.isEmpty then some [] else none
    else
      match parseJointLine l1 with
      | none => none
      | some ja =>
        match parseEeLine l2 with
        | none => none
        | some ee =>
          match parseLines rest with
          | none => none
          | some rs => some ((ja, ee) :: rs)
  | _ => none

/-- Parses the whole output file into its sequence of records. -/
def parseFile (s : String) : Option (List RecS) := parseLines (splitOnChar '\n' s.data)

/-- The logger's configuration: the parameters `getParam` loads in the
constructor, plus the numeric rendering used by the stream output of doubles
(not shallowly embeddable, hence a parameter). -/
structure Config where
  link_1_ : ℝ
  link_2_ : ℝ
  theta1_offset_ : ℝ
  theta2_offset_ : ℝ
  data_num_max_ : ℤ
  render : ℝ → String

/-- The logger's mutable state: the member fields of `SensorMeasurementData`
together with the on-disk file content (`none` until the first successful
write) and the process-wide shutdown flag `ros::shutdown` sets. -/
structure LoggerState where
  position_joint1_ : ℝ
  position_joint2_ : ℝ
  output_data_yaml_ : String
  data_count_ : ℤ
  fileContent : Option String
  shutdownRequested : Bool

/-- State after the constructor: `data_count_ = 0`, empty accumulated text,
no file written yet.  (The position members are uninitialised in the source;
they are first assigned in the callback before any use, so `0` here is
inconsequential.) -/
def initState : LoggerState :=
  { position_joint1_ := 0
    position_joint2_ := 0
    output_data_yaml_ := ""
    data_count_ := 0
    fileContent := none
    shutdownRequested := false }

/-- `SensorMeasurementData::saveJointAnglesEepos`: emits one record from the
`position_joint1_`/`position_joint2_` members and the end-effector argument. -/
noncomputable def saveJointAnglesEepos (cfg : Config) (s : LoggerState) (ee : ℝ × ℝ) : String :=
  emitRecord (cfg.render s.position_joint1_) (cfg.render s.position_joint2_)
    (cfg.render ee.1) (cfg.render ee.2)

/-- The observable effects of one callback invocation. -/
structure StepResult where
  state : LoggerState
  errorReported : Bool
  shutdownIssued : Bool

/-- `SensorMeasurementData::jointStatesCallback`.  `openOk` tells whether
`fout.open` succeeded (on failure `ROS_ERROR` is the only extra effect:
writes to the failed stream are no-ops, everything else proceeds).  The
unconditional reads `msg->position[0]` and `msg->position[1]` are modelled by
the partial index operator; a missing element is the out-of-bounds access,
returned as `none` (undefined behavior in the source). -/
noncomputable def jointStatesCallback (cfg : Config) (openOk : Bool) (msg : List ℝ)
    (s : LoggerState) : Option StepResult :=
  match msg[0]?, msg[1]? with
  | some p0, some p1 =>
    let s1 : LoggerState := { s with position_joint1_ := p0, position_joint2_ := p1 }
    let ee := eePos cfg.link_1_ cfg.link_2_ cfg.theta1_offset_ cfg.theta2_offset_ p0 p1
    let yaml := s1.output_data_yaml_ ++ saveJointAnglesEepos cfg s1 ee
    let newCount := s1.data_count_ + 1
    let shut := decide (newCount = cfg.data_num_max_)
    some
      { state :=
          { s1 with
            output_data_yaml_ := yaml
            data_count_ := newCount
            fileContent := if openOk then some (yaml ++ "\n") else s1.fileContent
            shutdownRequested := s1.shutdownRequested || shut }
        errorReported := !openOk
        shutdownIssued := shut }
  | _, _ => none

/-- Runs the callback on every element of the input list unconditionally
(each element: whether the file open succeeds, and the message's position
vector).  Returns the final state, the number of error reports and the
number of shutdown requests issued. -/
noncomputable def runCallbacks (cfg : Config) :
    LoggerState → List (Bool × List ℝ) → Option (LoggerState × ℕ × ℕ)
  | s, [] => some (s, 0, 0)
  | s, (ok, msg) :: rest =>
    match jointStatesCallback cfg ok msg s with
    | none => none
    | some r =>
      match runCallbacks cfg r.state rest with
      | none => none
      | some (s', e, d) =>
        some (s', (if r.errorReported then 1 else 0) + e,
          (if r.shutdownIssued then 1 else 0) + d)

/-- Runs the callback on the input list the way the ROS subscription delivers
samples: once the shutdown request has been issued, no further sample is
delivered. -/
noncomputable def runDelivered (cfg : Config) :
    LoggerState → List (Bool × List ℝ) → Option (LoggerState × ℕ × ℕ)
  | s, [] => some (s, 0, 0)
  | s, (ok, msg) :: rest =>
    if s.shutdownRequested then some (s, 0, 0)
    else
      match jointStatesCallback cfg ok msg s with
      | none => none
      | some r =>
        match runDelivered cfg r.state rest with
        | none => none
        | some (s', e, d) =>
          some (s', (if r.errorReported then 1 else 0) + e,
            (if r.shutdownIssued then 1 else 0) + d)

/-- Builds the delivered messages from abstract samples: per the Generator's
contract each message carries exactly the two joint positions. -/
def deliveries (l : List (Bool × ℝ × ℝ)) : List (Bool × List ℝ) :=
  l.map (fun t => (t.1, [t.2.1, t.2.2]))

/-- The record the callback appends for the sample `p`. -/
noncomputable def recordOf (cfg : Config) (p : ℝ × ℝ) : RecS :=
  let ee := eePos cfg.link_1_ cfg.link_2_ cfg.theta1_offset_ cfg.theta2_offset_ p.1 p.2
  ((cfg.render p.1, cfg.render p.2), (cfg.render ee.1, cfg.render ee.2))

def goodRec (r : RecS) : Bool :=
  goodStr r.1.1 && goodStr r.1.2 && goodStr r.2.1 && goodStr r.2.2

/-- A concrete configuration used to instantiate the theorems: unit links,
zero offsets, `data_point_count = 3`, every double rendered as `"0"`. -/
noncomputable def testConfig : Config :=
  { link_1_ := 1
    link_2_ := 1
    theta1_offset_ := 0
    theta2_offset_ := 0
    data_num_max_ := 3
    render := fun _ => "0" }

/-- One well-formed delivered sample with both joints at angle zero and a
successful file open. -/
def sampleIn : Bool × ℝ × ℝ := (true, 0, 0)

/-- The same configuration with `data_point_count = 0` (outside the spec's
`sample_target >= 1` precondition). -/
noncomputable def testConfig0 : Config :=
  { link_1_ := 1
    link_2_ := 1
    theta1_offset_ := 0
    theta2_offset_ := 0
    data_num_max_ := 0
    render := fun _ => "0" }

/-- Three well-formed samples: a full run at the `sample_target = 3` of
`testConfig`. -/
def testRun3 : List (Bool × ℝ × ℝ) := [sampleIn, sampleIn, sampleIn]

/-- Four well-formed samples: one more than the `sample_target = 3` of
`testConfig`. -/
def testRun4 : List (Bool × ℝ × ℝ) := [sampleIn, sampleIn, sampleIn, sampleIn]

/-- The character list of the first line of one serialized record. -/
def jlChars (j1 j2 : String) : List Char :=
  "- joint angles: [".data ++ (j1.data ++ ',' :: ' ' :: (j2.data ++ [']']))

/-- The character list of the second line of one serialized record. -/
def elChars (x y : String) : List Char :=
  "  end effector position: [".data ++ (x.data ++ ',' :: ' ' :: (y.data ++ [']']))

/-- The logger state after one callback invocation on a two-element message,
written out explicitly (definitionally equal to what `jointStatesCallback`
builds). -/
noncomputable def stepState (cfg : Config) (ok : Bool) (p0 p1 : ℝ) (s : LoggerState) :
    LoggerState :=
  { position_joint1_ := p0
    position_joint2_ := p1
    output_data_yaml_ := s.output_data_yaml_ ++ emitRecordR (recordOf cfg (p0, p1))
    data_count_ := s.data_count_ + 1
    fileContent :=
      if ok then some ((s.output_data_yaml_ ++ emitRecordR (recordOf cfg (p0, p1))) ++ "\n")
      else s.fileContent
    shutdownRequested := s.shutdownRequested || decide (s.data_count_ + 1 = cfg.data_num_max_) }

/-- C1: for every received sample and every loaded config, `eePos` computes
the end-effector position exactly per the spec's 2-link forward-kinematics
equations, with effective angles `theta1' = positions[0] - theta1_offset*pi/180`
and `theta2' = positions[1] - theta2_offset*pi/180`, and with the
normalization `f` a further multiplication by `pi/180` applied to the already
offset-corrected angle before `cos`/`sin`. -/
theorem eePos_matches_spec_equations (link_1 link_2 theta1_offset theta2_offset p0 p1 : ℝ) :
    eePos link_1 link_2 theta1_offset theta2_offset p0 p1 =
      eePosSpec link_1 link_2 theta1_offset theta2_offset p0 p1 := by
  unfold eePos eePosSpec
  simp only [mul_div_assoc]

/-- C7: every generated position value is the draw `(rand() % 315) / 100`,
hence lies in `[0.00, 3.14]` and is an integer multiple of `0.01`. -/
theorem jointPosOfRand_range (r : ℕ) :
    0 ≤ jointPosOfRand r ∧ jointPosOfRand r ≤ 3.14 ∧
      ∃ k : ℕ, k < 315 ∧ jointPosOfRand r = (k : ℚ) * (1 / 100) := by
  refine ⟨by unfold jointPosOfRand; positivity, ?_,
    r % 315, Nat.mod_lt r (by norm_num), by unfold jointPosOfRand; ring⟩
  unfold jointPosOfRand
  have h : ((r % 315 : ℕ) : ℚ) ≤ 314 := by
    exact_mod_cast Nat.le_of_lt_succ (Nat.mod_lt r (by norm_num))
  rw [div_le_iff₀ (by norm_num : (0 : ℚ) < 100)]
  nlinarith

theorem consume_append (p rest : List Char) : consume p (p ++ rest) = some rest := by
  induction p with
  | nil => rfl
  | cons a ps ih => simp [consume, ih]

theorem readUntil_append (c : Char) (xs ys : List Char) (h : ∀ x ∈ xs, x ≠ c) :
    readUntil c (xs ++ c :: ys) = some (xs, ys) := by
  induction xs with
  | nil => simp [readUntil]
  | cons a l ih =>
    have ha : a ≠ c := h a (List.mem_cons_self a l)
    simp [readUntil, ha, ih (fun x hx => h x (List.mem_cons_of_mem a hx))]

theorem splitOnChar_of_not_mem (c : Char) (xs : List Char) (h : ∀ x ∈ xs, x ≠ c) :
    splitOnChar c xs = [xs] := by
  induction xs with
  | nil => rfl
  | cons a l ih =>
    have ha : a ≠ c := h a (List.mem_cons_self a l)
    simp [splitOnChar, ha, ih (fun x hx => h x (List.mem_cons_of_mem a hx))]

theorem splitOnChar_append (c : Char) (xs ys : List Char) (h : ∀ x ∈ xs, x ≠ c) :
    splitOnChar c (xs ++ c :: ys) = xs :: splitOnChar c ys := by
  induction xs with
  | nil => simp [splitOnChar]
  | cons a l ih =>
    have ha : a ≠ c := h a (List.mem_cons_self a l)
    simp [splitOnChar, ha, ih (fun x hx => h x (List.mem_cons_of_mem a hx))]

theorem goodChars_ne (l : List Char) (hg : goodChars l = true) (c : Char)
    (hc : numChar c = false) : ∀ x ∈ l, x ≠ c := by
  intro x hx he
  have hall : l.all numChar = true := (Bool.and_eq_true _ _ |>.mp hg).2
  have hx' : numChar x = true := List.all_eq_true.mp hall x hx
  rw [he, hc] at hx'
  cases hx'

theorem goodChars_ne_nil (l : List Char) (hg : goodChars l = true) : l ≠ [] := by
  intro he
  subst he
  cases hg

theorem parseFlow_emit (a b : String) (ha : goodStr a = true) (hb : goodStr b = true) :
    parseFlow (a.data ++ ',' :: ' ' :: (b.data ++ [']'])) = some (a, b) := by
  have h1 : readUntil ',' (a.data ++ ',' :: (' ' :: (b.data ++ [']']))) =
      some (a.data, ' ' :: (b.data ++ [']'])) :=
    readUntil_append ',' a.data _ (goodChars_ne a.data ha ',' (by decide))
  have h2 : readUntil ']' (b.data ++ ']' :: []) = some (b.data, []) :=
    readUntil_append ']' b.data [] (goodChars_ne b.data hb ']' (by decide))
  unfold goodStr at ha hb
  unfold parseFlow
  simp [h1, h2, consume, ha, hb]

theorem parseJointLine_emit (j1 j2 : String) (h1 : goodStr j1 = true) (h2 : goodStr j2 = true) :
    parseJointLine (jlChars j1 j2) = some (j1, j2) := by
  unfold parseJointLine jlChars
  rw [consume_append]
  exact parseFlow_emit j1 j2 h1 h2

theorem parseEeLine_emit (x y : String) (h1 : goodStr x = true) (h2 : goodStr y = true) :
    parseEeLine (elChars x y) = some (x, y) := by
  unfold parseEeLine elChars
  rw [consume_append]
  exact parseFlow_emit x y h1 h2

theorem jlChars_no_newline (j1 j2 : String) (h1 : goodStr j1 = true) (h2 : goodStr j2 = true) :
    ∀ ch ∈ jlChars j1 j2, ch ≠ '\n' := by
  have hlit : ∀ ch ∈ ("- joint angles: [" : String).data, ch ≠ '\n' := by decide
  intro ch hch
  rw [jlChars] at hch
  rcases List.mem_append.mp hch with h | h
  · exact hlit ch h
  rcases List.mem_append.mp h with h | h
  · exact goodChars_ne j1.data h1 '\n' (by decide) ch h
  rcases List.mem_cons.mp h with h | h
  · subst h; decide
  rcases List.mem_cons.mp h with h | h
  · subst h; decide
  rcases List.mem_append.mp h with h | h
  · exact goodChars_ne j2.data h2 '\n' (by decide) ch h
  have h' := List.mem_singleton.mp h
  subst h'
  decide

theorem elChars_no_newline (x y : String) (h1 : goodStr x = true) (h2 : goodStr y = true) :
    ∀ ch ∈ elChars x y, ch ≠ '\n' := by
  have hlit : ∀ ch ∈ ("  end effector position: [" : String).data, ch ≠ '\n' := by decide
  intro ch hch
  rw [elChars] at hch
  rcases List.mem_append.mp hch with h | h
  · exact hlit ch h
  rcases List.mem_append.mp h with h | h
  · exact goodChars_ne x.data h1 '\n' (by decide) ch h
  rcases List.mem_cons.mp h with h | h
  · subst h; decide
  rcases List.mem_cons.mp h with h | h
  · subst h; decide
  rcases List.mem_append.mp h with h | h
  · exact goodChars_ne y.data h2 '\n' (by decide) ch h
  have h' := List.mem_singleton.mp h
  subst h'
  decide

theorem emitRecord_data_decomp (j1 j2 x y : String) (rest : List Char) :
    (emitRecord j1 j2 x y).data ++ rest =
      jlChars j1 j2 ++ '\n' :: (elChars x y ++ '\n' :: rest) := by
  have e1 : (", " : String).data = [',', ' '] := by decide
  have e2 : ("]\n  end effector position: [" : String).data =
      ']' :: '\n' :: ("  end effector position: [" : String).data := by decide
  have e3 : ("]\n" : String).data = [']', '\n'] := by decide
  simp only [emitRecord, jlChars, elChars, String.data_append, e1, e2, e3,
    List.append_assoc, List.cons_append, List.nil_append]

theorem splitOnChar_emit (j1 j2 x y : String) (rest : List Char)
    (h1 : goodStr j1 = true) (h2 : goodStr j2 = true)
    (h3 : goodStr x = true) (h4 : goodStr y = true) :
    splitOnChar '\n' ((emitRecord j1 j2 x y).data ++ rest) =
      jlChars j1 j2 :: elChars x y :: splitOnChar '\n' rest := by
  rw [emitRecord_data_decomp,
    splitOnChar_append '\n' _ _ (jlChars_no_newline j1 j2 h1 h2),
    splitOnChar_append '\n' _ _ (elChars_no_newline x y h3 h4)]

theorem jlChars_not_empty (j1 j2 : String) : (jlChars j1 j2).isEmpty = false := by
  have e : ("- joint angles: [" : String).data = '-' :: (" joint angles: [" : String).data := by
    decide
  simp [jlChars, e]

theorem parseLines_serialize (rs : List RecS) (hg : ∀ r ∈ rs, goodRec r = true) :
    parseLines (splitOnChar '\n' ((serializeRecs rs).data ++ ['\n'])) = some rs := by
  induction rs with
  | nil =>
    show parseLines (splitOnChar '\n' (("" : String).data ++ ['\n'])) = some []
    rfl
  | cons r rs ih =>
    have hr : goodRec r = true := hg r (List.mem_cons_self r rs)
    have hrs : ∀ q ∈ rs, goodRec q = true := fun q hq => hg q (List.mem_cons_of_mem r hq)
    have hr1 : goodStr r.1.1 = true := by
      simp only [goodRec, Bool.and_eq_true] at hr; exact hr.1.1.1
    have hr2 : goodStr r.1.2 = true := by
      simp only [goodRec, Bool.and_eq_true] at hr; exact hr.1.1.2
    have hr3 : goodStr r.2.1 = true := by
      simp only [goodRec, Bool.and_eq_true] at hr; exact hr.1.2
    have hr4 : goodStr r.2.2 = true := by
      simp only [goodRec, Bool.and_eq_true] at hr; exact hr.2
    have hdata : (serializeRecs (r :: rs)).data ++ ['\n'] =
        (emitRecordR r).data ++ ((serializeRecs rs).data ++ ['\n']) := by
      simp [serializeRecs, String.data_append]
    rw [hdata]
    rw [show emitRecordR r = emitRecord r.1.1 r.1.2 r.2.1 r.2.2 from rfl]
    rw [splitOnChar_emit r.1.1 r.1.2 r.2.1 r.2.2 _ hr1 hr2 hr3 hr4]
    rw [parseLines]
    simp only [jlChars_not_empty, Bool.false_eq_true, if_false,
      parseJointLine_emit r.1.1 r.1.2 hr1 hr2, parseEeLine_emit r.2.1 r.2.2 hr3 hr4, ih hrs]

theorem parseFile_serialize (rs : List RecS) (hg : ∀ r ∈ rs, goodRec r = true) :
    parseFile (serializeRecs rs ++ "\n") = some rs := by
  unfold parseFile
  rw [String.data_append, show ("\n" : String).data = ['\n'] by decide]
  exact parseLines_serialize rs hg

theorem callback_eq (cfg : Config) (ok : Bool) (p0 p1 : ℝ) (s : LoggerState) :
    jointStatesCallback cfg ok [p0, p1] s =
      some ⟨stepState cfg ok p0 p1 s, !ok, decide (s.data_count_ + 1 = cfg.data_num_max_)⟩ :=
  rfl

theorem runCallbacks_spec (cfg : Config) (l : List (Bool × ℝ × ℝ)) :
    ∀ s : LoggerState, ∃ s' e d,
      runCallbacks cfg s (deliveries l) = some (s', e, d) ∧
      s'.data_count_ = s.data_count_ + l.length ∧
      s'.output_data_yaml_ =
        s.output_data_yaml_ ++ serializeRecs (l.map (fun t => recordOf cfg t.2)) ∧
      e = l.countP (fun t => !t.1) ∧
      d = if s.data_count_ < cfg.data_num_max_ ∧
            cfg.data_num_max_ ≤ s.data_count_ + l.length then 1 else 0 := by
  induction l with
  | nil =>
    intro s
    refine ⟨s, 0, 0, rfl, by simp, by simp [serializeRecs, deliveries], by simp, ?_⟩
    simp only [List.length_nil, Nat.cast_zero, add_zero]
    split_ifs with h
    · omega
    · rfl
  | cons t l ih =>
    intro s
    obtain ⟨ok, p⟩ := t
    obtain ⟨s', e, d, hrun, hcount, hyaml, he, hd⟩ := ih (stepState cfg ok p.1 p.2 s)
    refine ⟨s', (if !ok then 1 else 0) + e,
      (if decide (s.data_count_ + 1 = cfg.data_num_max_) then 1 else 0) + d, ?_, ?_, ?_, ?_, ?_⟩
    · show runCallbacks cfg s ((ok, [p.1, p.2]) :: deliveries l) = _
      rw [runCallbacks, callback_eq cfg ok p.1 p.2 s]
      simp only [hrun]
    · rw [hcount]
      show (stepState cfg ok p.1 p.2 s).data_count_ + (l.length : ℤ) = _
      rw [show (stepState cfg ok p.1 p.2 s).data_count_ = s.data_count_ + 1 from rfl]
      simp only [List.length_cons]
      push_cast
      ring
    · rw [hyaml]
      show (stepState cfg ok p.1 p.2 s).output_data_yaml_ ++ _ = _
      rw [show (stepState cfg ok p.1 p.2 s).output_data_yaml_ =
        s.output_data_yaml_ ++ emitRecordR (recordOf cfg (p.1, p.2)) from rfl]
      rw [List.map_cons, serializeRecs, String.append_assoc]
    · rw [List.countP_cons, he]
      cases ok <;> (simp; try omega)
    · rw [hd]
      rw [show (stepState cfg ok p.1 p.2 s).data_count_ = s.data_count_ + 1 from rfl]
      simp only [decide_eq_true_eq, List.length_cons]
      split_ifs <;> push_cast <;> omega

theorem runCallbacks_last_ok (cfg : Config) (l : List (Bool × ℝ × ℝ)) :
    ∀ (p : ℝ × ℝ) (s : LoggerState), ∃ s' e d,
      runCallbacks cfg s (deliveries (l ++ [(true, p)])) = some (s', e, d) ∧
      s'.fileContent = some (s'.output_data_yaml_ ++ "\n") := by
  induction l with
  | nil =>
    intro p s
    refine ⟨stepState cfg true p.1 p.2 s, if (!true : Bool) then 1 else 0,
      if decide (s.data_count_ + 1 = cfg.data_num_max_) then 1 else 0, ?_, ?_⟩
    · show runCallbacks cfg s ((true, [p.1, p.2]) :: []) = _
      rw [runCallbacks, callback_eq cfg true p.1 p.2 s]
      rfl
    · rfl
  | cons t l ih =>
    intro p s
    obtain ⟨ok, q⟩ := t
    obtain ⟨s', e, d, hrun, hfile⟩ := ih p (stepState cfg ok q.1 q.2 s)
    refine ⟨s', (if !ok then 1 else 0) + e,
      (if decide (s.data_count_ + 1 = cfg.data_num_max_) then 1 else 0) + d, ?_, hfile⟩
    show runCallbacks cfg s ((ok, [q.1, q.2]) :: deliveries (l ++ [(true, p)])) = _
    rw [runCallbacks, callback_eq cfg ok q.1 q.2 s]
    simp only [hrun]

theorem runDelivered_stopped (cfg : Config) (s : LoggerState)
    (hs : s.shutdownRequested = true) (L : List (Bool × List ℝ)) :
    runDelivered cfg s L = some (s, 0, 0) := by
  cases L with
  | nil => rfl
  | cons t rest =>
    obtain ⟨ok, msg⟩ := t
    rw [runDelivered, hs]
    rfl

theorem runDelivered_count (cfg : Config) (l : List (Bool × ℝ × ℝ)) :
    ∀ s : LoggerState, s.shutdownRequested = false →
      s.data_count_ < cfg.data_num_max_ → ∃ s' e d,
      runDelivered cfg s (deliveries l) = some (s', e, d) ∧
      s'.data_count_ = min (s.data_count_ + l.length) cfg.data_num_max_ := by
  induction l with
  | nil =>
    intro s hflag hcount
    exact ⟨s, 0, 0, rfl, by simp; omega⟩
  | cons t l ih =>
    intro s hflag hcount
    obtain ⟨ok, p⟩ := t
    by_cases hhit : s.data_count_ + 1 = cfg.data_num_max_
    · have hstop : (stepState cfg ok p.1 p.2 s).shutdownRequested = true := by
        simp [stepState, hhit]
      refine ⟨stepState cfg ok p.1 p.2 s, (if !ok then 1 else 0) + 0,
        (if decide (s.data_count_ + 1 = cfg.data_num_max_) then 1 else 0) + 0, ?_, ?_⟩
      · show runDelivered cfg s ((ok, [p.1, p.2]) :: deliveries l) = _
        rw [runDelivered, hflag]
        simp only [Bool.false_eq_true, if_false]
        rw [show jointStatesCallback cfg ok [p.1, p.2] s =
          some ⟨stepState cfg ok p.1 p.2 s, !ok,
            decide (s.data_count_ + 1 = cfg.data_num_max_)⟩ from rfl]
        simp only [runDelivered_stopped cfg _ hstop]
      · rw [show (stepState cfg ok p.1 p.2 s).data_count_ = s.data_count_ + 1 from rfl]
        simp only [List.length_cons]
        push_cast
        omega
    · have hflag' : (stepState cfg ok p.1 p.2 s).shutdownRequested = false := by
        simp [stepState, hflag, hhit]
      have hcount' : (stepState cfg ok p.1 p.2 s).data_count_ < cfg.data_num_max_ := by
        rw [show (stepState cfg ok p.1 p.2 s).data_count_ = s.data_count_ + 1 from rfl]
        omega
      obtain ⟨s', e, d, hrun, hmin⟩ := ih (stepState cfg ok p.1 p.2 s) hflag' hcount'
      refine ⟨s', (if !ok then 1 else 0) + e,
        (if decide (s.data_count_ + 1 = cfg.data_num_max_) then 1 else 0) + d, ?_, ?_⟩
      · show runDelivered cfg s ((ok, [p.1, p.2]) :: deliveries l) = _
        rw [runDelivered, hflag]
        simp only [Bool.false_eq_true, if_false]
        rw [show jointStatesCallback cfg ok [p.1, p.2] s =
          some ⟨stepState cfg ok p.1 p.2 s, !ok,
            decide (s.data_count_ + 1 = cfg.data_num_max_)⟩ from rfl]
        simp only [hrun]
      · rw [hmin, show (stepState cfg ok p.1 p.2 s).data_count_ = s.data_count_ + 1 from rfl]
        simp only [List.length_cons]
        push_cast
        omega

/-- C3: for every N with N ≤ sample_target, after exactly N delivered samples
`data_count_` equals exactly N: it starts at 0 at construction and each
callback invocation increments it by exactly 1. -/
theorem received_count_equals_delivered (cfg : Config) (l : List (Bool × ℝ × ℝ))
    (_hN : (l.length : ℤ) ≤ cfg.data_num_max_) :
    initState.data_count_ = 0 ∧
    (∀ (ok : Bool) (msg : List ℝ) (s : LoggerState) (r : StepResult),
        jointStatesCallback cfg ok msg s = some r →
        r.state.data_count_ = s.data_count_ + 1) ∧
    ∃ s' e d, runCallbacks cfg initState (deliveries l) = some (s', e, d) ∧
      s'.data_count_ = l.length := by
  refine ⟨rfl, ?_, ?_⟩
  · intro ok msg s r h
    unfold jointStatesCallback at h
    split at h
    · cases h
      rfl
    · cases h
  · obtain ⟨s', e, d, hrun, hcount, _, _, _⟩ := runCallbacks_spec cfg l initState
    refine ⟨s', e, d, hrun, ?_⟩
    rw [hcount]
    simp [initState]

/-- C3 witness: three samples delivered under `sample_target = 3`. -/
theorem received_count_equals_delivered_witness :
    initState.data_count_ = 0 ∧
    (∀ (ok : Bool) (msg : List ℝ) (s : LoggerState) (r : StepResult),
        jointStatesCallback testConfig ok msg s = some r →
        r.state.data_count_ = s.data_count_ + 1) ∧
    ∃ s' e d, runCallbacks testConfig initState (deliveries testRun3) = some (s', e, d) ∧
      s'.data_count_ = testRun3.length :=
  received_count_equals_delivered testConfig testRun3 (by decide)

/-- C5: with `sample_target ≥ 1` and at most `sample_target` in-order
samples, the shutdown request count after the first k samples is 1 exactly
when k equals the target and 0 otherwise: it is issued exactly when the
just-incremented count reaches the target, hence exactly once and never
before the target-th sample. -/
theorem shutdown_exactly_at_target (cfg : Config) (l : List (Bool × ℝ × ℝ))
    (hT : 1 ≤ cfg.data_num_max_) (hlen : (l.length : ℤ) ≤ cfg.data_num_max_)
    (k : ℕ) (hk : k ≤ l.length) :
    ∃ s' e d, runCallbacks cfg initState (deliveries (l.take k)) = some (s', e, d) ∧
      d = if (k : ℤ) = cfg.data_num_max_ then 1 else 0 := by
  obtain ⟨s', e, d, hrun, _, _, _, hd⟩ := runCallbacks_spec cfg (l.take k) initState
  refine ⟨s', e, d, hrun, ?_⟩
  rw [hd]
  have hlen' : (l.take k).length = k := by
    simp only [List.length_take]
    omega
  rw [hlen', show initState.data_count_ = (0 : ℤ) from rfl]
  have hkk : (k : ℤ) ≤ (l.length : ℤ) := by exact_mod_cast hk
  split_ifs <;> omega

/-- C5 witness: a full run of three samples at `sample_target = 3`. -/
theorem shutdown_exactly_at_target_witness :
    ∃ s' e d, runCallbacks testConfig initState (deliveries (testRun3.take 3)) =
      some (s', e, d) ∧
      d = if ((3 : ℕ) : ℤ) = testConfig.data_num_max_ then 1 else 0 :=
  shutdown_exactly_at_target testConfig testRun3 (by decide) (by decide) 3 (by decide)

/-- C10: with a zero or negative configured target, the shutdown request is
never issued for any number of delivered samples, and every sample keeps
being processed and counted. -/
theorem nonpositive_target_never_shutdown (cfg : Config) (l : List (Bool × ℝ × ℝ))
    (hT : cfg.data_num_max_ ≤ 0) :
    ∃ s' e d, runCallbacks cfg initState (deliveries l) = some (s', e, d) ∧
      s'.data_count_ = l.length ∧ d = 0 := by
  obtain ⟨s', e, d, hrun, hcount, _, _, hd⟩ := runCallbacks_spec cfg l initState
  refine ⟨s', e, d, hrun, ?_, ?_⟩
  · rw [hcount]
    simp [initState]
  · rw [hd, show initState.data_count_ = (0 : ℤ) from rfl]
    split_ifs with h
    · omega
    · rfl

/-- C10 witness: three samples under a target of 0. -/
theorem nonpositive_target_never_shutdown_witness :
    ∃ s' e d, runCallbacks testConfig0 initState (deliveries testRun3) = some (s', e, d) ∧
      s'.data_count_ = testRun3.length ∧ d = 0 :=
  nonpositive_target_never_shutdown testConfig0 testRun3 (by decide)

/-- C6: when the output file cannot be opened, the callback reports the error
non-fatally, still appends the record to the accumulated log, still
increments `data_count_`, leaves the file untouched, still evaluates the
termination condition exactly as on success, and returns control (a defined
`some` result). -/
theorem open_failure_nonfatal (cfg : Config) (p0 p1 : ℝ) (s : LoggerState) :
    ∃ r : StepResult, jointStatesCallback cfg false [p0, p1] s = some r ∧
      r.errorReported = true ∧
      r.state.data_count_ = s.data_count_ + 1 ∧
      r.state.output_data_yaml_ = s.output_data_yaml_ ++ emitRecordR (recordOf cfg (p0, p1)) ∧
      r.state.fileContent = s.fileContent ∧
      r.shutdownIssued = decide (s.data_count_ + 1 = cfg.data_num_max_) :=
  ⟨_, callback_eq cfg false p0 p1 s, rfl, rfl, rfl, rfl, rfl⟩

/-- C9: the serialization of a record is a deterministic function of the
logged joint positions and the end-effector position alone — two states that
agree on the logged data serialize to byte-identical output, whatever their
other fields. -/
theorem save_depends_only_on_logged_data (cfg : Config) (s t : LoggerState) (ee : ℝ × ℝ)
    (h1 : s.position_joint1_ = t.position_joint1_)
    (h2 : s.position_joint2_ = t.position_joint2_) :
    saveJointAnglesEepos cfg s ee = saveJointAnglesEepos cfg t ee := by
  unfold saveJointAnglesEepos
  rw [h1, h2]

/-- C9 witness: two states differing in their counter but not in the logged
data serialize identically. -/
theorem save_depends_only_on_logged_data_witness :
    saveJointAnglesEepos testConfig initState (0, 0) =
      saveJointAnglesEepos testConfig { initState with data_count_ := 5 } (0, 0) :=
  save_depends_only_on_logged_data testConfig initState
    { initState with data_count_ := 5 } (0, 0) rfl rfl

/-- C8 amended: the callback performs no cardinality check — a message with
fewer than 2 position entries drives the unconditional `positions[0]` and
`positions[1]` reads out of bounds (undefined behavior, modelled as the
absence of a defined result), rather than being rejected; a message with at
least 2 entries is always processed. -/
theorem malformed_message_out_of_bounds (cfg : Config) (ok : Bool) (msg : List ℝ)
    (s : LoggerState) :
    jointStatesCallback cfg ok msg s = none ↔ msg.length < 2 := by
  match msg with
  | [] => simp [jointStatesCallback]
  | [p] => simp [jointStatesCallback]
  | p :: q :: rest =>
    have h0 : (p :: q :: rest)[0]? = some p := by simp
    have h1 : (p :: q :: rest)[1]? = some q := by simp
    simp only [jointStatesCallback, h0, h1, List.length_cons]
    constructor
    · intro h
      cases h
    · intro h
      exact absurd h (by omega)

/-- C8 counterexample: a one-element message is not rejected gracefully — the
access to `positions[1]` is out of bounds, so the callback has no defined
result (and in particular no defined unchanged-count rejection path). -/
theorem malformed_message_counterexample :
    jointStatesCallback testConfig true [(0 : ℝ)] initState = none := rfl

/-- C2 counterexample: with `sample_target = 3`, a fourth force-delivered
sample IS processed — the callback has no guard, so `data_count_` reaches 4. -/
theorem fourth_sample_processed_counterexample :
    (runCallbacks testConfig initState (deliveries testRun4)).map
      (fun t => t.1.data_count_) = some 4 := by
  rfl

/-- C2 amended: when delivery honors the issued shutdown request (as the ROS
subscription does), no sample beyond the `sample_target`-th is processed:
after N offered samples the count is `min N sample_target`. -/
theorem delivered_samples_capped (cfg : Config) (l : List (Bool × ℝ × ℝ))
    (hT : 1 ≤ cfg.data_num_max_) :
    ∃ s' e d, runDelivered cfg initState (deliveries l) = some (s', e, d) ∧
      s'.data_count_ = min (l.length : ℤ) cfg.data_num_max_ ∧
      s'.data_count_ ≤ cfg.data_num_max_ := by
  obtain ⟨s', e, d, hrun, hmin⟩ := runDelivered_count cfg l initState rfl
    (by rw [show initState.data_count_ = (0 : ℤ) from rfl]; omega)
  simp only [initState] at hmin
  exact ⟨s', e, d, hrun, by omega, by omega⟩

/-- C2 amended witness: four samples offered at `sample_target = 3` yield a
final count of 3. -/
theorem delivered_samples_capped_witness :
    ∃ s' e d, runDelivered testConfig initState (deliveries testRun4) = some (s', e, d) ∧
      s'.data_count_ = min (testRun4.length : ℤ) testConfig.data_num_max_ ∧
      s'.data_count_ ≤ testConfig.data_num_max_ :=
  delivered_samples_capped testConfig testRun4 (by decide)

/-- C4: after every successful write (the k-th delivered sample, whose file
open succeeded), the output file — opened in truncate mode and fully
rewritten — parses as a single sequence of exactly `data_count_` mappings,
one per processed sample in order, each with the keys `joint angles` and
`end effector position` mapped to 2-element numeric flow sequences. -/
theorem output_file_parses (cfg : Config) (l : List (Bool × ℝ × ℝ)) (k : ℕ)
    (hk1 : 1 ≤ k) (hk2 : k ≤ l.length)
    (hok : (l[k-1]?).map Prod.fst = some true)
    (hgood : ∀ t ∈ l, goodRec (recordOf cfg t.2) = true) :
    ∃ s' e d content recs,
      runCallbacks cfg initState (deliveries (l.take k)) = some (s', e, d) ∧
      s'.fileContent = some content ∧
      parseFile content = some recs ∧
      recs = (l.take k).map (fun t => recordOf cfg t.2) ∧
      (recs.length : ℤ) = s'.data_count_ := by
  obtain ⟨t0, ht0⟩ : ∃ t0, l[k-1]? = some t0 := by
    cases h : l[k-1]? with
    | none => rw [h] at hok; cases hok
    | some t0 => exact ⟨t0, rfl⟩
  obtain ⟨b, q⟩ := t0
  have hb : b = true := by
    rw [ht0] at hok
    simpa using hok
  subst hb
  have hdecomp : l.take k = l.take (k - 1) ++ [(true, q)] := by
    conv_lhs => rw [show k = (k - 1) + 1 by omega]
    rw [List.take_succ, ht0]
    rfl
  obtain ⟨s1, e1, d1, hrun1, hfile1⟩ := runCallbacks_last_ok cfg (l.take (k - 1)) q initState
  obtain ⟨s2, e2, d2, hrun2, hcount2, hyaml2, _, _⟩ := runCallbacks_spec cfg (l.take k) initState
  rw [hdecomp, hrun1] at hrun2
  simp only [Option.some.injEq, Prod.mk.injEq] at hrun2
  obtain ⟨hs, -, -⟩ := hrun2
  subst hs
  refine ⟨s1, e1, d1, s1.output_data_yaml_ ++ "\n",
    (l.take k).map (fun t => recordOf cfg t.2), ?_, hfile1, ?_, rfl, ?_⟩
  · rw [hdecomp]
    exact hrun1
  · have hempty : s1.output_data_yaml_ =
        serializeRecs ((l.take k).map (fun t => recordOf cfg t.2)) := by
      rw [hyaml2]
      rfl
    rw [hempty]
    refine parseFile_serialize _ ?_
    intro r hr
    obtain ⟨t, ht, hf⟩ := List.mem_map.mp hr
    rw [← hf]
    exact hgood t (List.take_subset k l ht)
  · rw [hcount2, show initState.data_count_ = (0 : ℤ) from rfl]
    have hlen : (l.take k).length = k := by
      simp only [List.length_take]
      omega
    simp only [List.length_map, hlen]
    omega

/-- C4 witness: the first sample of a three-sample run, written successfully,
yields a file parsing to exactly one record. -/
theorem output_file_parses_witness :
    ∃ s' e d content recs,
      runCallbacks testConfig initState (deliveries (testRun3.take 1)) = some (s', e, d) ∧
      s'.fileContent = some content ∧
      parseFile content = some recs ∧
      recs = (testRun3.take 1).map (fun t => recordOf testConfig t.2) ∧
      (recs.length : ℤ) = s'.data_count_ :=
  output_file_parses testConfig testRun3 1 (by decide) (by decide) (by decide)
    (by intro t ht; fin_cases ht <;> decide)

end My2DRobot
